import Mathlib

/-!
Shallow embedding of the Asegedech volunteer-scheduling backend
(`src/Asegedech/app.py`) and proofs about its task serializer, task store,
capacity/overlap booking check and login lookup.

Python strings are modelled as `List Char`; `str.split(sep)` (single-character
separator) is `List.splitOn`, `sep.join` is `List.intercalate [sep]`,
`str.strip` drops whitespace at both ends, and Python's `<` on strings is
lexicographic comparison on characters.  SQLite rows are structures with
`Option` fields for nullable columns; handlers are pure functions from a
database state and a request to a result and a new state.
-/

namespace Asegedech

/-- Python strings, modelled as lists of characters. -/
abbrev Str := List Char

/-- Character list of a Lean string literal. -/
def str (s : String) : Str := s.data

/-- Python `str.strip()`: drop whitespace from both ends. -/
def pyStrip (s : Str) : Str :=
  ((s.dropWhile Char.isWhitespace).reverse.dropWhile Char.isWhitespace).reverse

/-- Python `str.lower()` (ASCII case folding). -/
def pyLower (s : Str) : Str := s.map Char.toLower

/-- Python lexicographic `<` on strings. -/
def pyLt : Str → Str → Bool
  | _, [] => false
  | [], _ :: _ => true
  | a :: as, b :: bs => if a < b then true else if b < a then false else pyLt as bs

/-- A `{"start": .., "end": ..}` time-window object as decoded from storage. -/
structure TimeWindow where
  start : Str
  end_ : Str
deriving DecidableEq

/-- A row of the `tasks` table.  Nullable columns are `Option`s. -/
structure TaskRow where
  id : Int
  title : Str
  description : Option Str
  max_volunteers : Option Int
  slot_duration_mins : Int
  type : Str
  days_of_week : Option Str
  time_windows : Option Str
  event_dates : Option Str
  active : Int
  created_at : Str
  updated_at : Str
deriving DecidableEq

/-- The structured task object produced by `row_to_task`. -/
structure Task where
  id : Int
  title : Str
  description : Str
  maxVolunteers : Option Int
  slotDurationMins : Int
  type : Str
  daysOfWeek : List Str
  timeWindows : List TimeWindow
  eventDates : List Str
  active : Bool
  createdAt : Str
  updatedAt : Str
deriving DecidableEq

/-- One fragment of the stored `time_windows` string:
`{"start": p.split("-")[0], "end": p.split("-")[1]}`.  The two list indexings
can be out of bounds, which in Python raises; this is modelled by `Option`. -/
def decodeWindow (p : Str) : Option TimeWindow :=
  match (p.splitOn '-').get? 0, (p.splitOn '-').get? 1 with
  | some s, some e => some ⟨s, e⟩
  | _, _ => none

/-- The time-window list comprehension: each fragment is decoded in order and
any failure aborts the whole decoding (Python would raise). -/
def decodeWindows : List Str → Option (List TimeWindow)
  | [] => some []
  | p :: ps =>
    match decodeWindow p, decodeWindows ps with
    | some w, some ws => some (w :: ws)
    | _, _ => none

/-- `row_to_task` from the source: decode a stored row into a task object.
`x or ""` on a nullable column is `Option.getD`, the comma lists drop empty
fragments, the window list keeps only fragments containing a dash, and
`bool(r["active"])` is integer truthiness. -/
def row_to_task (r : TaskRow) : Option Task :=
  (decodeWindows (((r.time_windows.getD []).splitOn '|').filter
      (fun p => p.contains '-'))).map
    (fun tws =>
      { id := r.id
        title := r.title
        description := r.description.getD []
        maxVolunteers := r.max_volunteers
        slotDurationMins := r.slot_duration_mins
        type := r.type
        daysOfWeek := ((r.days_of_week.getD []).splitOn ',').filter
          (fun d => !d.isEmpty)
        timeWindows := tws
        eventDates := ((r.event_dates.getD []).splitOn ',').filter
          (fun d => !d.isEmpty)
        active := r.active != 0
        createdAt := r.created_at
        updatedAt := r.updated_at })

/-- A raw `{"start": .., "end": ..}` object in a request body; either key may
be absent (`w.get(..)`). -/
structure WindowInput where
  start : Option Str
  end_ : Option Str
deriving DecidableEq

/-- Loop body of `parse_time_windows`: trim both ends of one window and emit
a `start-end` fragment only when both are non-empty after trimming. -/
def windowFragment (w : WindowInput) : Option Str :=
  let s := pyStrip (w.start.getD [])
  let e := pyStrip (w.end_.getD [])
  if s.isEmpty || e.isEmpty then none else some (s ++ '-' :: e)

/-- `parse_time_windows` from the source: trim both ends of each window, keep
a `start-end` fragment only when both are non-empty, join the fragments
with `|`. -/
def parse_time_windows (windows : Option (List WindowInput)) : Str :=
  List.intercalate [ '|' ] ((windows.getD []).filterMap windowFragment)

/-- `to_csv` from the source: drop falsy (empty) items, join with commas. -/
def to_csv (items : Option (List Str)) : Str :=
  List.intercalate [ ',' ] ((items.getD []).filter (fun x => !x.isEmpty))

/-- Serializer encode direction (spec section 4.1): the stored record a task
object is written as — lists comma- or pipe-joined via `to_csv` and
`parse_time_windows`, the boolean stored as 0/1, plain fields verbatim. -/
def encode (t : Task) : TaskRow :=
  { id := t.id
    title := t.title
    description := some t.description
    max_volunteers := t.maxVolunteers
    slot_duration_mins := t.slotDurationMins
    type := t.type
    days_of_week := some (to_csv (some t.daysOfWeek))
    time_windows := some (parse_time_windows
      (some (t.timeWindows.map (fun w => ⟨some w.start, some w.end_⟩))))
    event_dates := some (to_csv (some t.eventDates))
    active := if t.active then 1 else 0
    created_at := t.createdAt
    updated_at := t.updatedAt }

/-- A row of the `appointments` table. -/
structure Appt where
  id : Int
  task_id : Int
  date : Str
  start_time : Str
  end_time : Str
  phone : Str
  created_at : Str
deriving DecidableEq

/-- A row of the `admins` table. -/
structure AdminRow where
  id : Int
  email : Str
  password_hash : Str
deriving DecidableEq

/-- The mutable store: the `tasks` and `appointments` tables in insertion
order, plus the next autoincrement id of each. -/
structure DBState where
  tasks : List TaskRow
  appointments : List Appt
  nextTaskId : Int
  nextApptId : Int
deriving DecidableEq

/-- Outcome of `POST /api/appointments`. -/
inductive BookResult where
  | missingFields
  | badTimes
  | notFound
  | conflict
  | ok
deriving DecidableEq

/-- HTTP status attached to each booking outcome. -/
def bookStatus : BookResult → Nat
  | .missingFields => 400
  | .badTimes => 400
  | .notFound => 404
  | .conflict => 409
  | .ok => 200

/-- Body of a `POST /api/appointments` request; absent JSON keys are `none`. -/
structure ApptReq where
  taskId : Option Int
  date : Option Str
  startTime : Option Str
  endTime : Option Str
  phone : Option Str
deriving DecidableEq

/-- Python truthiness of the `taskId` value (`None` and `0` are falsy). -/
def truthyId : Option Int → Bool
  | none => false
  | some n => n != 0

/-- The `not (task_id and date and start and end and phone)` guard of the
booking handler, on the stripped fields. -/
def fieldsPresent (data : ApptReq) : Bool :=
  truthyId data.taskId
    && !(pyStrip (data.date.getD [])).isEmpty
    && !(pyStrip (data.startTime.getD [])).isEmpty
    && !(pyStrip (data.endTime.getD [])).isEmpty
    && !(pyStrip (data.phone.getD [])).isEmpty

/-- `api_appointments_create` from the source: validate fields, reject
`start >= end`, look up an active task by id, count same-task same-date
appointments overlapping the requested half-open window, reject on capacity,
otherwise insert the appointment. -/
def api_appointments_create (st : DBState) (data : ApptReq) (now : Str) :
    BookResult × DBState :=
  let task_id := data.taskId.getD 0
  let date := pyStrip (data.date.getD [])
  let start := pyStrip (data.startTime.getD [])
  let end_ := pyStrip (data.endTime.getD [])
  let phone := pyStrip (data.phone.getD [])
  if !fieldsPresent data then (.missingFields, st)
  else if !pyLt start end_ then (.badTimes, st)
  else
    match st.tasks.find? (fun t => t.id == task_id && t.active == 1) with
    | none => (.notFound, st)
    | some task =>
      let existing := st.appointments.filter
        (fun a => a.task_id == task_id && a.date == date)
      let num_overlap := existing.countP
        (fun a => pyLt start a.end_time && pyLt a.start_time end_)
      let inserted : BookResult × DBState :=
        (.ok, { st with
          appointments := st.appointments
            ++ [⟨st.nextApptId, task_id, date, start, end_, phone, now⟩]
          nextApptId := st.nextApptId + 1 })
      match task.max_volunteers with
      | some max_vol =>
        if (num_overlap : Int) ≥ max_vol then (.conflict, st) else inserted
      | none => inserted

/-- Body of an admin task create/update request; absent keys are `none`.
`active` carries the truthiness of the submitted JSON value. -/
structure TaskInput where
  title : Option Str
  description : Option Str
  maxVolunteers : Option Int
  slotDurationMins : Option Int
  type : Option Str
  daysOfWeek : Option (List Str)
  timeWindows : Option (List WindowInput)
  eventDates : Option (List Str)
  active : Option Bool
deriving DecidableEq

/-- `int(data.get("slotDurationMins") or 60)`: `None` and `0` fall back
to 60. -/
def slotMinsOf : Option Int → Int
  | none => 60
  | some n => if n == 0 then 60 else n

/-- `data.get("type") if data.get("type") in ("recurring","event") else
"recurring"`. -/
def typeOf : Option Str → Str
  | some ty => if ty == str "recurring" || ty == str "event" then ty
      else str "recurring"
  | none => str "recurring"

/-- The columns a create or update writes, given the input body: title and
description stripped, lists encoded by `to_csv` / `parse_time_windows`,
`active` stored as 0/1, `type` normalized. -/
def taskRowOfInput (id : Int) (data : TaskInput) (created_at now : Str) :
    TaskRow :=
  { id := id
    title := pyStrip (data.title.getD [])
    description := some (pyStrip (data.description.getD []))
    max_volunteers := data.maxVolunteers
    slot_duration_mins := slotMinsOf data.slotDurationMins
    type := typeOf data.type
    days_of_week := some (to_csv data.daysOfWeek)
    time_windows := some (parse_time_windows data.timeWindows)
    event_dates := some (to_csv data.eventDates)
    active := if data.active == some true then 1 else 0
    created_at := created_at
    updated_at := now }

/-- The SQL `UPDATE tasks SET ... WHERE id=?`: every column except `id` and
`created_at` is replaced. -/
def updateRow (data : TaskInput) (now : Str) (t : TaskRow) : TaskRow :=
  taskRowOfInput t.id data t.created_at now

/-- Outcome of `POST /api/admin/tasks`. -/
inductive CreateResult where
  | unauthorized
  | badTitle
  | created (t : Option Task)
deriving DecidableEq

/-- Outcome of `PUT /api/admin/tasks/(id)`. -/
inductive UpdateResult where
  | unauthorized
  | badTitle
  | notFound
  | ok (t : Option Task)
deriving DecidableEq

/-- `api_admin_create` from the source: auth gate, non-empty stripped title,
insert a fresh row, re-select it and return its decoded form. -/
def api_admin_create (st : DBState) (isAdmin : Bool) (data : TaskInput)
    (now : Str) : CreateResult × DBState :=
  if !isAdmin then (.unauthorized, st)
  else if (pyStrip (data.title.getD [])).isEmpty then (.badTitle, st)
  else
    let row := taskRowOfInput st.nextTaskId data now now
    let tasks' := st.tasks ++ [row]
    let st' := { st with tasks := tasks', nextTaskId := st.nextTaskId + 1 }
    (.created ((tasks'.find? (fun t => t.id == row.id)).bind row_to_task), st')

/-- `api_admin_update` from the source: auth gate, non-empty stripped title,
existence check, full-row update of every matching row, re-select and return
the decoded stored form. -/
def api_admin_update (st : DBState) (isAdmin : Bool) (task_id : Int)
    (data : TaskInput) (now : Str) : UpdateResult × DBState :=
  if !isAdmin then (.unauthorized, st)
  else if (pyStrip (data.title.getD [])).isEmpty then (.badTitle, st)
  else
    match st.tasks.find? (fun t => t.id == task_id) with
    | none => (.notFound, st)
    | some _ =>
      let tasks' := st.tasks.map
        (fun t => if t.id == task_id then updateRow data now t else t)
      let st' := { st with tasks := tasks' }
      (.ok ((tasks'.find? (fun t => t.id == task_id)).bind row_to_task), st')

/-- Insertion step of `ORDER BY id DESC`: place a row before the first row
with a smaller-or-equal id. -/
def insertDesc (r : TaskRow) : List TaskRow → List TaskRow
  | [] => [r]
  | x :: xs => if x.id ≤ r.id then r :: x :: xs else x :: insertDesc r xs

/-- `ORDER BY id DESC` as an insertion sort. -/
def sortByIdDesc : List TaskRow → List TaskRow
  | [] => []
  | x :: xs => insertDesc x (sortByIdDesc xs)

/-- `GET /api/tasks`: the active rows, newest id first, each decoded. -/
def api_tasks_public (st : DBState) : List (Option Task) :=
  (sortByIdDesc (st.tasks.filter (fun t => t.active == 1))).map row_to_task

/-- Outcome of `POST /api/login`. -/
inductive LoginResult where
  | ok (email : Str)
  | invalid
deriving DecidableEq

/-- HTTP status of a login outcome. -/
def loginStatus : LoginResult → Nat
  | .ok _ => 200
  | .invalid => 401

/-- The session cookie: an admin id and email once established. -/
abbrev Session := Option (Int × Str)

/-- Body of a `POST /api/login` request. -/
structure LoginReq where
  email : Option Str
  password : Option Str
deriving DecidableEq

/-- `api_login` from the source, parametric in the credential checker
(`check_password_hash` is an external library): strip and lower the
identifier; with an `@` look the email up exactly, otherwise match either the
bare identifier or `identifier + "@example.com"`; on a password match
establish the session, otherwise leave it unchanged and fail. -/
def api_login (check : Str → Str → Bool) (admins : List AdminRow)
    (sess : Session) (data : LoginReq) : LoginResult × Session :=
  let identifier := pyLower (pyStrip (data.email.getD []))
  let password := data.password.getD []
  let row :=
    if identifier.contains '@' then
      admins.find? (fun a => a.email == identifier)
    else
      admins.find? (fun a =>
        a.email == identifier || a.email == identifier ++ str "@example.com")
  match row with
  | some r =>
    if check r.password_hash password then (.ok r.email, some (r.id, r.email))
    else (.invalid, sess)
  | none => (.invalid, sess)

/-- The two rows `seed_admin` writes, sharing one stored password hash. -/
def seededAdmins (h : Str) : List AdminRow :=
  [⟨1, str "admin@example.com", h⟩, ⟨2, str "admin", h⟩]

/-- Well-formedness of one time window for the serializer round trip: both
strings already trimmed, non-empty, and free of the two delimiter
characters. -/
def wfWindow (w : TimeWindow) : Prop :=
  pyStrip w.start = w.start ∧ w.start ≠ [] ∧ ('-' : Char) ∉ w.start
    ∧ ('|' : Char) ∉ w.start
    ∧ pyStrip w.end_ = w.end_ ∧ w.end_ ≠ [] ∧ ('-' : Char) ∉ w.end_
    ∧ ('|' : Char) ∉ w.end_

/-- Well-formedness of a task for the serializer round trip: every window is
well-formed and every day / event-date entry is non-empty and comma-free. -/
def wfTask (t : Task) : Prop :=
  (∀ w ∈ t.timeWindows, wfWindow w)
    ∧ (∀ d ∈ t.daysOfWeek, d ≠ [] ∧ (',' : Char) ∉ d)
    ∧ (∀ d ∈ t.eventDates, d ≠ [] ∧ (',' : Char) ∉ d)

instance (w : TimeWindow) : Decidable (wfWindow w) := by
  unfold wfWindow; infer_instance

instance (t : Task) : Decidable (wfTask t) := by
  unfold wfTask; infer_instance

/-- A one-task store used by concrete examples, with the given capacity. -/
def sampleTask (mv : Option Int) : TaskRow :=
  { id := 1, title := str "t", description := none, max_volunteers := mv,
    slot_duration_mins := 60, type := str "recurring", days_of_week := none,
    time_windows := none, event_dates := none, active := 1,
    created_at := str "c", updated_at := str "c" }

/-- A fresh store holding only `sampleTask mv`. -/
def sampleState (mv : Option Int) : DBState := ⟨[sampleTask mv], [], 2, 1⟩

/-- A fully-populated booking request for task 1. -/
def sampleReq (d s e : String) : ApptReq :=
  ⟨some 1, some (str d), some (str s), some (str e), some (str "555")⟩

/-- An existing 09:00-10:00 appointment of task 1 on 2025-01-01. -/
def sampleAppt : Appt :=
  ⟨1, 1, str "2025-01-01", str "09:00", str "10:00", str "555", str "c"⟩

/-- A store whose only task (capacity 1) already has `sampleAppt` booked. -/
def bookedState : DBState := ⟨[sampleTask (some 1)], [sampleAppt], 2, 2⟩

/-- A store with no tasks at all. -/
def emptyState : DBState := ⟨[], [], 1, 1⟩

/-- An update/create body that only sets a title and `active = true`. -/
def sampleInput : TaskInput :=
  ⟨some (str "T"), none, none, none, none, none, none, none, some true⟩

/-- An update/create body with a title and no `active` key at all. -/
def inactiveInput : TaskInput :=
  ⟨some (str "T"), none, none, none, none, none, none, none, none⟩

/-- The credential checker used by concrete login examples: the stored hash
is compared for equality with the submitted password. -/
def eqCheck : Str → Str → Bool := fun h p => h == p

/-- A task whose single window has a dash inside its start string; its
trimmed window strings are non-empty. -/
def dashTask : Task :=
  { id := 1, title := str "t", description := [], maxVolunteers := none,
    slotDurationMins := 60, type := str "recurring", daysOfWeek := [],
    timeWindows := [⟨str "09-00", str "12:00"⟩], eventDates := [],
    active := true, createdAt := str "c", updatedAt := str "c" }

/-- A row whose `time_windows` fragment contains two dashes. -/
def multiDashRow : TaskRow :=
  { sampleTask none with time_windows := some (str "09:00-12:00-extra") }

/-- A row whose `time_windows` string contains no dash at all. -/
def dashFreeRow : TaskRow :=
  { sampleTask none with time_windows := some (str "0900") }

/-- A fully-populated well-formed task used to witness the round trip. -/
def roundTask : Task :=
  { id := 1, title := str "t", description := str "d", maxVolunteers := some 3,
    slotDurationMins := 30, type := str "event",
    daysOfWeek := [str "Mon", str "Fri"],
    timeWindows := [⟨str "09:00", str "12:00"⟩, ⟨str "14:00", str "17:00"⟩],
    eventDates := [str "2025-08-20"],
    active := false, createdAt := str "c", updatedAt := str "u" }

theorem splitOn_no_sep {x : Char} {s : Str} (h : x ∉ s) : s.splitOn x = [s] := by
  apply List.splitOnP_eq_single
  intro y hy hb
  exact h (eq_of_beq hb ▸ hy)

theorem splitOn_first {x : Char} {a : Str} (h : x ∉ a) (b : Str) :
    (a ++ x :: b).splitOn x = a :: b.splitOn x := by
  show List.splitOnP (· == x) (a ++ x :: b) = a :: List.splitOnP (· == x) b
  apply List.splitOnP_first
  · intro y hy hb
    exact h (eq_of_beq hb ▸ hy)
  · exact beq_self_eq_true x

theorem two_le_splitOn_length {x : Char} :
    ∀ {s : Str}, x ∈ s → 2 ≤ (s.splitOn x).length := by
  intro s hs
  induction s with
  | nil => cases hs
  | cons c cs ih =>
    show 2 ≤ (List.splitOnP (· == x) (c :: cs)).length
    rw [List.splitOnP_cons]
    by_cases hc : c = x
    · rw [if_pos (by simp [hc])]
      have hne := List.splitOnP_ne_nil (· == x) cs
      have hlen : 0 < (List.splitOnP (· == x) cs).length :=
        List.length_pos.mpr hne
      simpa using hlen
    · have hmem : x ∈ cs := by
        cases List.mem_cons.mp hs with
        | inl h => exact absurd h.symm hc
        | inr h => exact h
      have h2 : 2 ≤ (List.splitOnP (· == x) cs).length := ih hmem
      rw [if_neg (by simp [hc])]
      simpa [List.length_modifyHead] using h2

theorem mem_of_mem_splitOnP {x : Char} {c : Char} :
    ∀ {s p : Str}, p ∈ s.splitOnP (· == x) → c ∈ p → c ∈ s := by
  intro s
  induction s with
  | nil =>
    intro p hp hc
    simp only [List.splitOnP_nil, List.mem_singleton] at hp
    subst hp; cases hc
  | cons a as ih =>
    intro p hp hc
    rw [List.splitOnP_cons] at hp
    by_cases ha : (a == x) = true
    · rw [if_pos ha] at hp
      cases List.mem_cons.mp hp with
      | inl h => subst h; cases hc
      | inr h => exact List.mem_cons_of_mem a (ih h hc)
    · rw [if_neg ha] at hp
      cases hsp : List.splitOnP (· == x) as with
      | nil => exact absurd hsp (List.splitOnP_ne_nil _ as)
      | cons q qs =>
        rw [hsp] at hp
        simp only [List.modifyHead] at hp
        cases List.mem_cons.mp hp with
        | inl h =>
          subst h
          cases List.mem_cons.mp hc with
          | inl h2 => subst h2; exact List.mem_cons_self _ _
          | inr h2 =>
            exact List.mem_cons_of_mem a
              (ih (hsp ▸ List.mem_cons_self q qs) h2)
        | inr h =>
          exact List.mem_cons_of_mem a
            (ih (hsp ▸ List.mem_cons_of_mem q h) hc)

theorem mem_of_mem_splitOn {x : Char} {c : Char} {s p : Str}
    (hp : p ∈ s.splitOn x) (hc : c ∈ p) : c ∈ s :=
  mem_of_mem_splitOnP hp hc

theorem decodeWindow_isSome {p : Str} (h : ('-' : Char) ∈ p) :
    (decodeWindow p).isSome = true := by
  have h2 := two_le_splitOn_length h
  match hs : p.splitOn '-' with
  | [] => rw [hs] at h2; cases h2
  | [a] => rw [hs] at h2; exact absurd h2 (by simp)
  | a :: b :: t => simp [decodeWindow, hs]

theorem decodeWindow_pair {s e : Str} (hs : ('-' : Char) ∉ s)
    (he : ('-' : Char) ∉ e) : decodeWindow (s ++ '-' :: e) = some ⟨s, e⟩ := by
  have h1 : (s ++ '-' :: e).splitOn '-' = s :: e.splitOn '-' :=
    splitOn_first hs e
  have h2 : e.splitOn '-' = [e] := splitOn_no_sep he
  simp [decodeWindow, h1, h2]

theorem decodeWindow_firstTwo {a b : Str} (ha : ('-' : Char) ∉ a)
    (hb : ('-' : Char) ∉ b) (c : Str) :
    decodeWindow (a ++ '-' :: (b ++ '-' :: c)) = some ⟨a, b⟩ := by
  have h1 : (a ++ '-' :: (b ++ '-' :: c)).splitOn '-'
      = a :: (b ++ '-' :: c).splitOn '-' := splitOn_first ha _
  have h2 : (b ++ '-' :: c).splitOn '-' = b :: c.splitOn '-' :=
    splitOn_first hb c
  simp [decodeWindow, h1, h2]

theorem decodeWindows_isSome :
    ∀ {ps : List Str}, (∀ p ∈ ps, ('-' : Char) ∈ p) →
      (decodeWindows ps).isSome = true := by
  intro ps
  induction ps with
  | nil => intro _; rfl
  | cons p ps ih =>
    intro h
    have h1 := decodeWindow_isSome (h p (List.mem_cons_self _ _))
    obtain ⟨w, hw⟩ := Option.isSome_iff_exists.mp h1
    have h2 := ih (fun q hq => h q (List.mem_cons_of_mem p hq))
    obtain ⟨ws, hws⟩ := Option.isSome_iff_exists.mp h2
    simp [decodeWindows, hw, hws]

theorem decodeWindows_map_pair :
    ∀ {ws : List TimeWindow},
      (∀ w ∈ ws, ('-' : Char) ∉ w.start ∧ ('-' : Char) ∉ w.end_) →
      decodeWindows (ws.map (fun w => w.start ++ '-' :: w.end_)) = some ws := by
  intro ws
  induction ws with
  | nil => intro _; rfl
  | cons w ws ih =>
    intro h
    obtain ⟨h1, h2⟩ := h w (List.mem_cons_self _ _)
    have h3 := ih (fun q hq => h q (List.mem_cons_of_mem w hq))
    simp [decodeWindows, decodeWindow_pair h1 h2, h3]

theorem pyLt_cons_iff {a b : Char} {as bs : Str} :
    pyLt (a :: as) (b :: bs) = true ↔ a < b ∨ (a = b ∧ pyLt as bs = true) := by
  by_cases hab : a < b
  · simp [pyLt, hab]
  · by_cases hba : b < a
    · have hne : a ≠ b := fun h => absurd (h ▸ hba) (lt_irrefl a)
      simp [pyLt, hab, hba, hne]
    · have heq : a = b := le_antisymm (not_lt.mp hba) (not_lt.mp hab)
      simp [pyLt, hab, hba, heq]

theorem pyLt_irrefl : ∀ s : Str, pyLt s s = false := by
  intro s
  induction s with
  | nil => rfl
  | cons a as ih => simp [pyLt, lt_irrefl, ih]

theorem pyLt_trans :
    ∀ {a b c : Str}, pyLt a b = true → pyLt b c = true → pyLt a c = true := by
  intro a
  induction a with
  | nil =>
    intro b c h1 h2
    cases c with
    | nil => cases b with
      | nil => exact h1
      | cons b0 bs => cases h2
    | cons c0 cs => rfl
  | cons a0 as ih =>
    intro b c h1 h2
    cases b with
    | nil => cases h1
    | cons b0 bs =>
      cases c with
      | nil => cases h2
      | cons c0 cs =>
        rcases pyLt_cons_iff.mp h1 with hlt1 | ⟨heq1, htl1⟩
        · rcases pyLt_cons_iff.mp h2 with hlt2 | ⟨heq2, _⟩
          · exact pyLt_cons_iff.mpr (Or.inl (lt_trans hlt1 hlt2))
          · exact pyLt_cons_iff.mpr (Or.inl (heq2 ▸ hlt1))
        · rcases pyLt_cons_iff.mp h2 with hlt2 | ⟨heq2, htl2⟩
          · exact pyLt_cons_iff.mpr (Or.inl (heq1 ▸ hlt2))
          · exact pyLt_cons_iff.mpr
              (Or.inr ⟨heq1.trans heq2, ih htl1 htl2⟩)

theorem pyLt_cases :
    ∀ a b : Str, pyLt a b = true ∨ pyLt b a = true ∨ a = b := by
  intro a
  induction a with
  | nil =>
    intro b
    cases b with
    | nil => exact Or.inr (Or.inr rfl)
    | cons b0 bs => exact Or.inl rfl
  | cons a0 as ih =>
    intro b
    cases b with
    | nil => exact Or.inr (Or.inl rfl)
    | cons b0 bs =>
      rcases lt_trichotomy a0 b0 with hlt | heq | hgt
      · exact Or.inl (pyLt_cons_iff.mpr (Or.inl hlt))
      · rcases ih bs with h | h | h
        · exact Or.inl (pyLt_cons_iff.mpr (Or.inr ⟨heq, h⟩))
        · exact Or.inr (Or.inl (pyLt_cons_iff.mpr (Or.inr ⟨heq.symm, h⟩)))
        · exact Or.inr (Or.inr (by rw [heq, h]))
      · exact Or.inr (Or.inl (pyLt_cons_iff.mpr (Or.inl hgt)))

theorem pyLt_asymm {a b : Str} (h : pyLt a b = true) : pyLt b a = false := by
  cases h2 : pyLt b a with
  | false => rfl
  | true => exact absurd (pyLt_trans h h2) (by simp [pyLt_irrefl a])

theorem pyLe_lt_trans {s x e : Str} (h1 : pyLt x s = false)
    (h2 : pyLt x e = true) : pyLt s e = true := by
  rcases pyLt_cases s x with hsx | hxs | heq
  · exact pyLt_trans hsx h2
  · rw [hxs] at h1; cases h1
  · rw [heq]; exact h2

theorem row_to_task_isSome (r : TaskRow) : (row_to_task r).isSome = true := by
  have h : (decodeWindows (((r.time_windows.getD []).splitOn '|').filter
      (fun p => p.contains '-'))).isSome = true :=
    decodeWindows_isSome (fun p hp => List.elem_iff.mp (List.of_mem_filter hp))
  obtain ⟨ws, hws⟩ := Option.isSome_iff_exists.mp h
  rw [row_to_task, hws]
  rfl

theorem row_to_task_id {r : TaskRow} {t : Task} (h : row_to_task r = some t) :
    t.id = r.id := by
  rw [row_to_task] at h
  cases hd : decodeWindows (((r.time_windows.getD []).splitOn '|').filter
      (fun p => p.contains '-')) with
  | none => rw [hd] at h; cases h
  | some ws =>
    rw [hd] at h
    simp only [Option.map_some', Option.some.injEq] at h
    rw [← h]

theorem row_to_task_active {r : TaskRow} {t : Task}
    (h : row_to_task r = some t) : t.active = (r.active != 0) := by
  rw [row_to_task] at h
  cases hd : decodeWindows (((r.time_windows.getD []).splitOn '|').filter
      (fun p => p.contains '-')) with
  | none => rw [hd] at h; cases h
  | some ws =>
    rw [hd] at h
    simp only [Option.map_some', Option.some.injEq] at h
    rw [← h]

theorem splitOn_to_csv {xs : List Str}
    (h : ∀ x ∈ xs, x ≠ [] ∧ (',' : Char) ∉ x) :
    ((to_csv (some xs)).splitOn ',').filter (fun d => !d.isEmpty) = xs := by
  have hfil : xs.filter (fun x => !x.isEmpty) = xs :=
    List.filter_eq_self.mpr (fun x hx => by
      simp [List.isEmpty_iff, (h x hx).1])
  rw [to_csv, Option.getD_some, hfil]
  cases hxs : xs with
  | nil => rfl
  | cons y ys =>
    rw [← hxs]
    rw [List.splitOn_intercalate xs ','
      (fun l hl => (h l hl).2) (by rw [hxs]; exact List.noConfusion)]
    exact List.filter_eq_self.mpr (fun x hx => by
      simp [List.isEmpty_iff, (h x hx).1])

theorem filterMap_windowFragment {ws : List TimeWindow}
    (h : ∀ w ∈ ws, wfWindow w) :
    (ws.map (fun w => (⟨some w.start, some w.end_⟩ : WindowInput))).filterMap
        windowFragment
      = ws.map (fun w => w.start ++ '-' :: w.end_) := by
  induction ws with
  | nil => rfl
  | cons w ws ih =>
    obtain ⟨hs1, hs2, _, _, he1, he2, _, _⟩ := h w (List.mem_cons_self _ _)
    have hfrag : windowFragment ⟨some w.start, some w.end_⟩
        = some (w.start ++ '-' :: w.end_) := by
      rw [windowFragment]
      simp only [Option.getD_some, hs1, he1]
      rw [if_neg (by simp [List.isEmpty_iff, hs2, he2])]
    simp only [List.map_cons, List.filterMap_cons, hfrag,
      ih (fun q hq => h q (List.mem_cons_of_mem w hq))]

theorem decode_encoded_windows {ws : List TimeWindow}
    (h : ∀ w ∈ ws, wfWindow w) :
    decodeWindows (((parse_time_windows
        (some (ws.map (fun w => ⟨some w.start, some w.end_⟩)))).splitOn
          '|').filter (fun p => p.contains '-'))
      = some ws := by
  rw [parse_time_windows, Option.getD_some, filterMap_windowFragment h]
  cases hws : ws with
  | nil => rfl
  | cons w0 ws0 =>
    rw [← hws]
    have hsplit : (List.intercalate [ '|' ]
          (ws.map (fun w => w.start ++ '-' :: w.end_))).splitOn '|'
        = ws.map (fun w => w.start ++ '-' :: w.end_) := by
      apply List.splitOn_intercalate
      · intro l hl
        obtain ⟨w, hw, hlw⟩ := List.mem_map.mp hl
        obtain ⟨_, _, _, hp1, _, _, _, hp2⟩ := h w hw
        intro hmem
        rw [← hlw] at hmem
        rcases List.mem_append.mp hmem with h1 | h1
        · exact hp1 h1
        · rcases List.mem_cons.mp h1 with h2 | h2
          · cases h2
          · exact hp2 h2
      · rw [hws]; simp
    rw [hsplit]
    have hkeep : (ws.map (fun w => w.start ++ '-' :: w.end_)).filter
        (fun p => p.contains '-') = ws.map (fun w => w.start ++ '-' :: w.end_) := by
      apply List.filter_eq_self.mpr
      intro p hp
      obtain ⟨w, _, hlw⟩ := List.mem_map.mp hp
      rw [← hlw]
      exact List.elem_iff.mpr (List.mem_append.mpr
        (Or.inr (List.mem_cons_self _ _)))
    rw [hkeep]
    exact decodeWindows_map_pair (fun w hw => by
      obtain ⟨_, _, h1, _, _, _, h2, _⟩ := h w hw
      exact ⟨h1, h2⟩)

theorem overlap_iff_intersects {s1 e1 s2 e2 : Str}
    (h1 : pyLt s1 e1 = true) (h2 : pyLt s2 e2 = true) :
    (pyLt s1 e2 && pyLt s2 e1) = true
      ↔ ∃ x : Str, pyLt x s1 = false ∧ pyLt x e1 = true
          ∧ pyLt x s2 = false ∧ pyLt x e2 = true := by
  constructor
  · intro h
    obtain ⟨ho1, ho2⟩ := Bool.and_eq_true_iff.mp h
    cases hc : pyLt s1 s2 with
    | true =>
      exact ⟨s2, pyLt_asymm hc, ho2, pyLt_irrefl s2, h2⟩
    | false =>
      exact ⟨s1, pyLt_irrefl s1, h1, hc, ho1⟩
  · rintro ⟨x, hx1, hx2, hx3, hx4⟩
    exact Bool.and_eq_true_iff.mpr
      ⟨pyLe_lt_trans hx1 hx4, pyLe_lt_trans hx3 hx2⟩

theorem find?_map_update {tid : Int} {f : TaskRow → TaskRow}
    (hid : ∀ t, (f t).id = t.id) :
    ∀ {l : List TaskRow} {r0 : TaskRow},
      l.find? (fun t => t.id == tid) = some r0 →
      (l.map (fun t => if t.id == tid then f t else t)).find?
        (fun t => t.id == tid) = some (f r0) := by
  intro l
  induction l with
  | nil => intro r0 h; cases h
  | cons a l ih =>
    intro r0 h
    cases hp : (a.id == tid) with
    | true =>
      simp only [List.find?_cons, hp] at h
      injection h with h
      subst h
      rw [List.map_cons]
      have e1 : (if (a.id == tid) = true then f a else a) = f a := if_pos hp
      rw [e1]
      have e2 : List.find? (fun t : TaskRow => t.id == tid)
          (f a :: (l.map (fun t => if t.id == tid then f t else t)))
          = some (f a) :=
        List.find?_cons_of_pos _ (by show ((f a).id == tid) = true; rw [hid a]; exact hp)
      rw [e2]
    | false =>
      simp only [List.find?_cons, hp] at h
      rw [List.map_cons]
      have e1 : (if (a.id == tid) = true then f a else a) = a := if_neg (by simp [hp])
      rw [e1]
      have e2 : List.find? (fun t : TaskRow => t.id == tid)
          (a :: (l.map (fun t => if t.id == tid then f t else t)))
          = List.find? (fun t => t.id == tid)
              (l.map (fun t => if t.id == tid then f t else t)) :=
        List.find?_cons_of_neg _ (by simp [hp])
      rw [e2]
      exact ih h

theorem mem_insertDesc {r x : TaskRow} :
    ∀ {l : List TaskRow}, x ∈ insertDesc r l ↔ x = r ∨ x ∈ l := by
  intro l
  induction l with
  | nil => simp [insertDesc]
  | cons a l ih =>
    rw [insertDesc]
    by_cases hle : a.id ≤ r.id
    · rw [if_pos hle]
      simp
    · rw [if_neg hle]
      simp only [List.mem_cons, ih]
      tauto

theorem mem_sortByIdDesc {x : TaskRow} :
    ∀ {l : List TaskRow}, x ∈ sortByIdDesc l ↔ x ∈ l := by
  intro l
  induction l with
  | nil => simp [sortByIdDesc]
  | cons a l ih =>
    rw [sortByIdDesc, mem_insertDesc, List.mem_cons, ih]

theorem all_filter_self (p : Str → Bool) :
    ∀ l : List Str, (l.filter p).all p = true := by
  intro l
  apply List.all_eq_true.mpr
  intro x hx
  exact List.of_mem_filter hx

/-- C6: decoding a stored row is total and pure — it always yields a task
(every list index taken is in bounds); a row whose optional string columns
are all NULL decodes to empty description and empty lists, never null; and
malformed comma data only drops empty fragments, so every decoded day and
event date is non-empty. -/
theorem C6_decode_total (r : TaskRow) :
    (row_to_task r).isSome = true
    ∧ (row_to_task { r with description := none
                            days_of_week := none
                            time_windows := none
                            event_dates := none }).map
        (fun t => (t.description, t.daysOfWeek, t.timeWindows, t.eventDates))
      = some ([], [], [], [])
    ∧ (row_to_task r).map
        (fun t => (t.daysOfWeek.all (fun d => !d.isEmpty)
          && t.eventDates.all (fun d => !d.isEmpty)))
      = some true := by
  refine ⟨row_to_task_isSome r, rfl, ?_⟩
  have h := row_to_task_isSome r
  rw [row_to_task] at h ⊢
  cases hd : decodeWindows (((r.time_windows.getD []).splitOn '|').filter
      (fun p => p.contains '-')) with
  | none => rw [hd] at h; simp at h
  | some ws =>
    simp only [Option.map_some', Option.some.injEq]
    rw [all_filter_self, all_filter_self]
    rfl

/-- C5 counterexample: on the stored fragment `09:00-12:00-extra` the decoded
end is `12:00` — the segment between the first and second dash — not
`12:00-extra`, the whole text after the first dash as the claim states. -/
theorem C5_cex :
    (row_to_task multiDashRow).map (fun t => t.timeWindows)
        = some [⟨str "09:00", str "12:00"⟩]
    ∧ (row_to_task multiDashRow).map (fun t => t.timeWindows)
        ≠ some [⟨str "09:00", str "12:00-extra"⟩] := by
  constructor
  · decide
  · decide

/-- C5 amended: decode splits the stored string on the pipe, keeps only
fragments containing a dash, and takes the first two components of the full
dash split, so for a fragment `a-b-c` the decoded window is `(a, b)` — the
end is the segment between the first and second dash; a fragment with no
dash at all is dropped. -/
theorem C5_first_two_segments :
    (∀ (a b c : Str) (r : TaskRow), ('-' : Char) ∉ a → ('-' : Char) ∉ b →
      ('|' : Char) ∉ (a ++ '-' :: (b ++ '-' :: c)) →
      r.time_windows = some (a ++ '-' :: (b ++ '-' :: c)) →
      (row_to_task r).map (fun t => t.timeWindows) = some [⟨a, b⟩])
    ∧ (∀ (p : Str) (r : TaskRow), ('-' : Char) ∉ p →
      r.time_windows = some p →
      (row_to_task r).map (fun t => t.timeWindows) = some []) := by
  constructor
  · intro a b c r ha hb hpipe hr
    rw [row_to_task, hr, Option.getD_some]
    rw [splitOn_no_sep hpipe]
    have hcon : (List.filter (fun p => p.contains '-')
        [a ++ '-' :: (b ++ '-' :: c)]) = [a ++ '-' :: (b ++ '-' :: c)] := by
      apply List.filter_eq_self.mpr
      intro x hx
      rw [List.mem_singleton] at hx
      subst hx
      exact List.elem_iff.mpr
        (List.mem_append.mpr (Or.inr (List.mem_cons_self _ _)))
    rw [hcon]
    rw [decodeWindows, decodeWindow_firstTwo ha hb c]
    rfl
  · intro p r hp hr
    rw [row_to_task, hr, Option.getD_some]
    have hnil : (List.filter (fun q => q.contains '-') (p.splitOn '|')) = [] := by
      apply List.filter_eq_nil_iff.mpr
      intro q hq hcq
      exact hp (mem_of_mem_splitOn hq (List.elem_iff.mp hcq))
    rw [hnil]
    rfl

/-- C5 witness: the amended statement applied to the two-dash fragment row
and to a dash-free row. -/
theorem C5_first_two_segments_witness :
    (row_to_task multiDashRow).map (fun t => t.timeWindows)
        = some [⟨str "09:00", str "12:00"⟩]
    ∧ (row_to_task dashFreeRow).map (fun t => t.timeWindows) = some [] :=
  ⟨C5_first_two_segments.1 (str "09:00") (str "12:00") (str "extra")
      multiDashRow (by decide) (by decide) (by decide) (by decide),
    C5_first_two_segments.2 (str "0900") dashFreeRow (by decide) (by decide)⟩

/-- C3 counterexample: `dashTask` has non-empty trimmed window strings (and
no day or event-date entries), yet decoding its encoding does not give it
back — the dash inside the start string corrupts the window split. -/
theorem C3_cex :
    (∀ w ∈ dashTask.timeWindows, pyStrip w.start ≠ [] ∧ pyStrip w.end_ ≠ [])
    ∧ row_to_task (encode dashTask) ≠ some dashTask := by
  constructor
  · decide
  · decide

/-- C3 amended: decoding the encoded record of a task gives the task back
provided every window string is trimmed, non-empty and free of the dash and
pipe delimiters, and every day and event-date entry is non-empty and
comma-free. -/
theorem C3_roundtrip (t : Task) (h : wfTask t) :
    row_to_task (encode t) = some t := by
  obtain ⟨hw, hd, he⟩ := h
  obtain ⟨i, ti, de, mv, sl, ty, da, tw, ev, ac, ca, ua⟩ := t
  simp only [row_to_task, encode, Option.getD_some]
  rw [decode_encoded_windows hw]
  simp only [Option.map_some', Option.some.injEq]
  rw [splitOn_to_csv hd, splitOn_to_csv he]
  simp only [Task.mk.injEq, and_true, true_and]
  cases ac <;> rfl

/-- C3 witness: the amended round trip on a fully-populated well-formed
task. -/
theorem C3_roundtrip_witness :
    wfTask roundTask ∧ row_to_task (encode roundTask) = some roundTask :=
  ⟨by decide, C3_roundtrip roundTask (by decide)⟩

/-- C10: for an active task with `maxVolunteers = 0` every booking attempt
with all fields present and `startTime < endTime` is rejected with
Conflict 409, even with no existing appointments — the count, always
non-negative, is compared with the stored zero using a non-strict
inequality, so zero capacity is not unlimited. -/
theorem C10_zero_capacity (st : DBState) (data : ApptReq) (now : Str)
    (task : TaskRow)
    (hf : fieldsPresent data = true)
    (ht : pyLt (pyStrip (data.startTime.getD []))
      (pyStrip (data.endTime.getD [])) = true)
    (hfind : st.tasks.find? (fun t => t.id == data.taskId.getD 0
      && t.active == 1) = some task)
    (hmv : task.max_volunteers = some 0) :
    api_appointments_create st data now = (.conflict, st)
    ∧ bookStatus .conflict = 409 := by
  constructor
  · simp only [api_appointments_create, hf, ht, hfind, hmv, Bool.not_true,
      Bool.false_eq_true, if_false]
    rw [if_pos (Int.natCast_nonneg _)]
  · rfl

/-- C10 witness: a zero-capacity task with an empty appointment table still
rejects a valid booking. -/
theorem C10_zero_capacity_witness :
    api_appointments_create (sampleState (some 0))
        (sampleReq "2025-01-01" "09:00" "10:00") (str "n")
      = (.conflict, sampleState (some 0))
    ∧ bookStatus .conflict = 409 :=
  C10_zero_capacity (sampleState (some 0))
    (sampleReq "2025-01-01" "09:00" "10:00") (str "n") (sampleTask (some 0))
    (by decide) (by decide) (by decide) (by decide)

/-- C4 counterexample: a booking whose `startTime` is not before its
`endTime`, aimed at a task id that does not exist, is answered with the
ValidationError (400), not NotFound — the time comparison runs before the
task lookup. -/
theorem C4_cex :
    api_appointments_create emptyState
        (sampleReq "2025-01-01" "10:00" "09:00") (str "n")
      = (.badTimes, emptyState)
    ∧ BookResult.badTimes ≠ BookResult.notFound
    ∧ bookStatus .badTimes = 400 ∧ bookStatus .notFound = 404 := by
  refine ⟨by decide, by decide, rfl, rfl⟩

/-- C4 amended: after the missing-fields check the booking operation first
rejects `startTime >= endTime` with ValidationError 400 — regardless of
whether the task exists — and only for a well-ordered window does it look
the task up, answering NotFound 404 when no active task has the id. -/
theorem C4_validation_before_lookup :
    (∀ (st : DBState) (data : ApptReq) (now : Str),
      fieldsPresent data = true →
      pyLt (pyStrip (data.startTime.getD []))
        (pyStrip (data.endTime.getD [])) = false →
      api_appointments_create st data now = (.badTimes, st)
        ∧ bookStatus .badTimes = 400)
    ∧ (∀ (st : DBState) (data : ApptReq) (now : Str),
      fieldsPresent data = true →
      pyLt (pyStrip (data.startTime.getD []))
        (pyStrip (data.endTime.getD [])) = true →
      st.tasks.find? (fun t => t.id == data.taskId.getD 0
        && t.active == 1) = none →
      api_appointments_create st data now = (.notFound, st)
        ∧ bookStatus .notFound = 404) := by
  constructor
  · intro st data now hf ht
    constructor
    · simp only [api_appointments_create, hf, ht, Bool.not_true, Bool.not_false,
        Bool.false_eq_true, if_false, if_true]
    · rfl
  · intro st data now hf ht hfind
    constructor
    · simp only [api_appointments_create, hf, ht, hfind, Bool.not_true,
        Bool.false_eq_true, if_false]
    · rfl

/-- C4 witness: the amended order on a store with no tasks — an inverted
window is a 400 and a well-ordered window against the missing task a 404. -/
theorem C4_validation_before_lookup_witness :
    (api_appointments_create emptyState
        (sampleReq "2025-01-01" "10:00" "09:00") (str "n")
      = (.badTimes, emptyState) ∧ bookStatus .badTimes = 400)
    ∧ (api_appointments_create emptyState
        (sampleReq "2025-01-01" "09:00" "10:00") (str "n")
      = (.notFound, emptyState) ∧ bookStatus .notFound = 404) :=
  ⟨C4_validation_before_lookup.1 emptyState
      (sampleReq "2025-01-01" "10:00" "09:00") (str "n")
      (by decide) (by decide),
    C4_validation_before_lookup.2 emptyState
      (sampleReq "2025-01-01" "09:00" "10:00") (str "n")
      (by decide) (by decide) (by decide)⟩

/-- C2: the booking check's overlap test `newStart < existingEnd AND
existingStart < newEnd` holds exactly when the two half-open intervals have
a common point (for well-ordered windows); concretely, with capacity 1 on
one date, after booking 09:00-10:00 the touching window 10:00-11:00 is still
admitted, while after booking 09:00-10:30 the overlapping window
10:00-11:00 is rejected with Conflict. -/
theorem C2_overlap_test :
    (∀ s1 e1 s2 e2 : Str, pyLt s1 e1 = true → pyLt s2 e2 = true →
      ((pyLt s1 e2 && pyLt s2 e1) = true
        ↔ ∃ x : Str, pyLt x s1 = false ∧ pyLt x e1 = true
            ∧ pyLt x s2 = false ∧ pyLt x e2 = true))
    ∧ (api_appointments_create
        (api_appointments_create (sampleState (some 1))
          (sampleReq "2025-01-01" "09:00" "10:00") (str "n")).2
        (sampleReq "2025-01-01" "10:00" "11:00") (str "n")).1 = .ok
    ∧ (api_appointments_create
        (api_appointments_create (sampleState (some 1))
          (sampleReq "2025-01-01" "09:00" "10:30") (str "n")).2
        (sampleReq "2025-01-01" "10:00" "11:00") (str "n")).1 = .conflict := by
  refine ⟨?_, by decide, by decide⟩
  intro s1 e1 s2 e2 h1 h2
  constructor
  · intro h
    obtain ⟨ho1, ho2⟩ := Bool.and_eq_true_iff.mp h
    exact (overlap_iff_intersects h1 h2).mp (Bool.and_eq_true_iff.mpr ⟨ho1, ho2⟩)
  · intro hx
    exact (overlap_iff_intersects h1 h2).mpr hx

/-- C2 witness: the overlap characterization applied to the overlapping pair
09:00-10:30 and 10:00-11:00. -/
theorem C2_overlap_test_witness :
    (pyLt (str "09:00") (str "11:00") && pyLt (str "10:00") (str "10:30")) = true
      ↔ ∃ x : Str, pyLt x (str "09:00") = false ∧ pyLt x (str "10:30") = true
          ∧ pyLt x (str "10:00") = false ∧ pyLt x (str "11:00") = true :=
  C2_overlap_test.1 (str "09:00") (str "10:30") (str "10:00") (str "11:00")
    (by decide) (by decide)

/-- C1 counterexample: a task with `maxVolunteers = 0` and no appointments
at all — so the claim's N existing overlapping appointments on the date
2025-01-01 exist vacuously — rejects a valid booking on the different date
2025-01-02 with Conflict instead of admitting it. -/
theorem C1_cex :
    api_appointments_create (sampleState (some 0))
        (sampleReq "2025-01-02" "09:00" "10:00") (str "n")
      = (.conflict, sampleState (some 0))
    ∧ BookResult.conflict ≠ BookResult.ok := by
  refine ⟨by decide, by decide⟩

/-- C1 amended: (a) with `maxVolunteers = N` and N existing appointments of
the task on the requested date all overlapping the requested window
(mutually overlapping among themselves), a further overlapping booking on
that date is rejected with Conflict 409 and the store is unchanged; (b) a
booking for the same task with the same window on a different date is
admitted and inserted regardless of the count on the first date, provided
N >= 1 — for N = 0 every booking of the task is rejected; (c) when
`maxVolunteers` is NULL a booking is never rejected for capacity. -/
theorem C1_capacity_rule :
    (∀ (st : DBState) (data : ApptReq) (now : Str) (N : ℕ) (task : TaskRow)
        (l : List Appt),
      fieldsPresent data = true →
      pyLt (pyStrip (data.startTime.getD []))
        (pyStrip (data.endTime.getD [])) = true →
      st.tasks.find? (fun t => t.id == data.taskId.getD 0
        && t.active == 1) = some task →
      task.max_volunteers = some (N : Int) →
      l.Sublist st.appointments →
      l.length = N →
      (∀ a ∈ l, a.task_id = data.taskId.getD 0
        ∧ a.date = pyStrip (data.date.getD [])
        ∧ (pyLt (pyStrip (data.startTime.getD [])) a.end_time
            && pyLt a.start_time (pyStrip (data.endTime.getD []))) = true) →
      l.Pairwise (fun a b => (pyLt a.start_time b.end_time
          && pyLt b.start_time a.end_time) = true) →
      api_appointments_create st data now = (.conflict, st)
        ∧ bookStatus .conflict = 409)
    ∧ (∀ (st : DBState) (data : ApptReq) (now : Str) (N : Int)
        (task : TaskRow) (d : Str),
      fieldsPresent data = true →
      pyLt (pyStrip (data.startTime.getD []))
        (pyStrip (data.endTime.getD [])) = true →
      st.tasks.find? (fun t => t.id == data.taskId.getD 0
        && t.active == 1) = some task →
      task.max_volunteers = some N →
      1 ≤ N →
      (∀ a ∈ st.appointments, a.task_id = data.taskId.getD 0 →
        a.date = d) →
      pyStrip (data.date.getD []) ≠ d →
      (api_appointments_create st data now).1 = .ok
        ∧ (api_appointments_create st data now).2.appointments
          = st.appointments ++ [⟨st.nextApptId, data.taskId.getD 0,
              pyStrip (data.date.getD []), pyStrip (data.startTime.getD []),
              pyStrip (data.endTime.getD []), pyStrip (data.phone.getD []),
              now⟩])
    ∧ (∀ (st : DBState) (data : ApptReq) (now : Str),
      (∀ t ∈ st.tasks, t.max_volunteers = none) →
      (api_appointments_create st data now).1 ≠ .conflict) := by
  refine ⟨?_, ?_, ?_⟩
  · intro st data now N task l hf ht hfind hmv hsub hlen hall hpair
    have h1 : l.filter (fun a => a.task_id == data.taskId.getD 0
        && a.date == pyStrip (data.date.getD [])) = l :=
      List.filter_eq_self.mpr (fun a ha => by
        obtain ⟨e1, e2, _⟩ := hall a ha
        simp [e1, e2])
    have h2 : l.countP
        (fun a => pyLt (pyStrip (data.startTime.getD [])) a.end_time
          && pyLt a.start_time (pyStrip (data.endTime.getD []))) = l.length :=
      List.countP_eq_length.mpr (fun a ha => (hall a ha).2.2)
    have h3 := List.Sublist.countP_le
      (fun a => pyLt (pyStrip (data.startTime.getD [])) a.end_time
        && pyLt a.start_time (pyStrip (data.endTime.getD [])))
      (hsub.filter (fun a => a.task_id == data.taskId.getD 0
        && a.date == pyStrip (data.date.getD [])))
    rw [h1] at h3
    have hcount : N ≤ (st.appointments.filter
        (fun a => a.task_id == data.taskId.getD 0
          && a.date == pyStrip (data.date.getD []))).countP
        (fun a => pyLt (pyStrip (data.startTime.getD [])) a.end_time
          && pyLt a.start_time (pyStrip (data.endTime.getD []))) := by
      omega
    have hge : ((st.appointments.filter
        (fun a => a.task_id == data.taskId.getD 0
          && a.date == pyStrip (data.date.getD []))).countP
        (fun a => pyLt (pyStrip (data.startTime.getD [])) a.end_time
          && pyLt a.start_time (pyStrip (data.endTime.getD []))) : Int)
        ≥ (N : Int) := by exact_mod_cast hcount
    constructor
    · simp only [api_appointments_create, hf, ht, hfind, hmv, Bool.not_true,
        Bool.false_eq_true, if_false]
      rw [if_pos hge]
    · rfl
  · intro st data now N task d hf ht hfind hmv hN hdates hdiff
    have hnil : st.appointments.filter
        (fun a => a.task_id == data.taskId.getD 0
          && a.date == pyStrip (data.date.getD [])) = [] := by
      apply List.filter_eq_nil_iff.mpr
      intro a ha hpred
      obtain ⟨hp1, hp2⟩ := Bool.and_eq_true_iff.mp hpred
      exact hdiff ((eq_of_beq hp2).symm.trans (hdates a ha (eq_of_beq hp1)))
    have hres : api_appointments_create st data now
        = (.ok, { st with
            appointments := st.appointments
              ++ [⟨st.nextApptId, data.taskId.getD 0,
                pyStrip (data.date.getD []), pyStrip (data.startTime.getD []),
                pyStrip (data.endTime.getD []), pyStrip (data.phone.getD []),
                now⟩]
            nextApptId := st.nextApptId + 1 }) := by
      simp only [api_appointments_create, hf, ht, hfind, hmv, hnil,
        Bool.not_true, Bool.false_eq_true, if_false, List.countP_nil,
        Nat.cast_zero]
      rw [if_neg (by omega)]
    exact ⟨by rw [hres], by rw [hres]⟩
  · intro st data now hnone
    cases hf : fieldsPresent data with
    | false => simp [api_appointments_create, hf]
    | true =>
      cases ht : pyLt (pyStrip (data.startTime.getD []))
          (pyStrip (data.endTime.getD [])) with
      | false => simp [api_appointments_create, hf, ht]
      | true =>
        cases hfind : st.tasks.find? (fun t => t.id == data.taskId.getD 0
            && t.active == 1) with
        | none => simp [api_appointments_create, hf, ht, hfind]
        | some task =>
          have hmv := hnone task (List.mem_of_find?_eq_some hfind)
          simp [api_appointments_create, hf, ht, hfind, hmv]

/-- C1 witness: on a capacity-1 task with one 09:00-10:00 appointment on
2025-01-01, an overlapping 09:30-10:30 booking that day conflicts; the same
window on 2025-01-02 is admitted and inserted; and with NULL capacity no
request is answered with Conflict. -/
theorem C1_capacity_rule_witness :
    (api_appointments_create bookedState
        (sampleReq "2025-01-01" "09:30" "10:30") (str "n")
      = (.conflict, bookedState) ∧ bookStatus .conflict = 409)
    ∧ ((api_appointments_create bookedState
        (sampleReq "2025-01-02" "09:00" "10:00") (str "n")).1 = .ok
      ∧ (api_appointments_create bookedState
          (sampleReq "2025-01-02" "09:00" "10:00") (str "n")).2.appointments
        = bookedState.appointments ++ [⟨bookedState.nextApptId, 1,
            str "2025-01-02", str "09:00", str "10:00", str "555", str "n"⟩])
    ∧ (api_appointments_create (sampleState none)
        (sampleReq "2025-01-01" "09:00" "10:00") (str "n")).1 ≠ .conflict :=
  ⟨C1_capacity_rule.1 bookedState (sampleReq "2025-01-01" "09:30" "10:30")
      (str "n") 1 (sampleTask (some 1)) [sampleAppt] (by decide) (by decide)
      (by decide) (by decide) (List.Sublist.refl _) rfl (by decide) (by simp),
    C1_capacity_rule.2.1 bookedState (sampleReq "2025-01-02" "09:00" "10:00")
      (str "n") 1 (sampleTask (some 1)) (str "2025-01-01") (by decide)
      (by decide) (by decide) (by decide) (by decide) (by decide) (by decide),
    C1_capacity_rule.2.2 (sampleState none)
      (sampleReq "2025-01-01" "09:00" "10:00") (str "n") (by decide)⟩

/-- C7 counterexample: an update aimed at an absent task id whose body also
has an empty title fails with the title ValidationError, not NotFound — the
title check runs before the existence check. -/
theorem C7_cex :
    (api_admin_update emptyState true 5
        ⟨none, none, none, none, none, none, none, none, none⟩ (str "n")).1
      = .badTitle
    ∧ UpdateResult.badTitle ≠ UpdateResult.notFound := by
  refine ⟨by decide, by decide⟩

/-- C7 amended: for an existing task id and a non-empty trimmed title the
update replaces every mutable column of the matching row, stamps
`updated_at` with the current time, keeps the row's id and original
`created_at`, and returns the decoded stored form; for an absent id (again
with a valid title — an empty title is rejected first) it fails with
NotFound and leaves the store unchanged. -/
theorem C7_update_semantics :
    (∀ (st : DBState) (task_id : Int) (data : TaskInput) (now : Str)
        (r0 : TaskRow),
      (pyStrip (data.title.getD [])).isEmpty = false →
      st.tasks.find? (fun t => t.id == task_id) = some r0 →
      api_admin_update st true task_id data now
        = (.ok (row_to_task (updateRow data now r0)),
            { st with tasks := st.tasks.map (fun t =>
                if t.id == task_id then updateRow data now t else t) })
        ∧ (updateRow data now r0).id = r0.id
        ∧ (updateRow data now r0).created_at = r0.created_at
        ∧ (updateRow data now r0).updated_at = now
        ∧ (updateRow data now r0).title = pyStrip (data.title.getD [])
        ∧ (updateRow data now r0).description
          = some (pyStrip (data.description.getD []))
        ∧ (updateRow data now r0).max_volunteers = data.maxVolunteers
        ∧ (updateRow data now r0).active
          = (if data.active == some true then 1 else 0)
        ∧ (row_to_task (updateRow data now r0)).isSome = true)
    ∧ (∀ (st : DBState) (task_id : Int) (data : TaskInput) (now : Str),
      (pyStrip (data.title.getD [])).isEmpty = false →
      st.tasks.find? (fun t => t.id == task_id) = none →
      api_admin_update st true task_id data now = (.notFound, st)) := by
  constructor
  · intro st task_id data now r0 htitle hfind
    have hmap := @find?_map_update task_id (updateRow data now)
      (fun t => rfl) st.tasks r0 hfind
    refine ⟨?_, rfl, rfl, rfl, rfl, rfl, rfl, rfl, row_to_task_isSome _⟩
    simp only [api_admin_update, Bool.not_true, Bool.false_eq_true, if_false,
      htitle, hfind, hmap, Option.some_bind]
  · intro st task_id data now htitle hfind
    simp only [api_admin_update, Bool.not_true, Bool.false_eq_true, if_false,
      htitle, hfind]

/-- C7 witness: the amended statement on a one-task store (id 1) and on the
absent id 5. -/
theorem C7_update_semantics_witness :
    (api_admin_update (sampleState none) true 1 sampleInput (str "n")
        = (.ok (row_to_task (updateRow sampleInput (str "n")
            (sampleTask none))),
          { sampleState none with tasks := (sampleState none).tasks.map (fun t =>
              if t.id == 1 then updateRow sampleInput (str "n") t else t) })
      ∧ (row_to_task (updateRow sampleInput (str "n")
          (sampleTask none))).isSome = true)
    ∧ api_admin_update (sampleState none) true 5 sampleInput (str "n")
        = (.notFound, sampleState none) := by
  refine ⟨⟨?_, ?_⟩, ?_⟩
  · exact (C7_update_semantics.1 (sampleState none) 1 sampleInput (str "n")
      (sampleTask none) (by decide) (by decide)).1
  · exact (C7_update_semantics.1 (sampleState none) 1 sampleInput (str "n")
      (sampleTask none) (by decide) (by decide)).2.2.2.2.2.2.2.2
  · exact C7_update_semantics.2 (sampleState none) 5 sampleInput (str "n")
      (by decide) (by decide)

/-- C8: login with identifier `admin` and password `admin` against the
seeded accounts equals login with `admin@example.com` — the bare identifier
is also tried with `@example.com` appended — and both succeed and establish
the session; with any identifier, a password the checker rejects for every
stored hash yields 401 and leaves the session exactly as it was. -/
theorem C8_login_aliases :
    (∀ (h : Str) (sess : Session) (check : Str → Str → Bool),
      check h (str "admin") = true →
      api_login check (seededAdmins h) sess
          ⟨some (str "admin"), some (str "admin")⟩
        = api_login check (seededAdmins h) sess
          ⟨some (str "admin@example.com"), some (str "admin")⟩
      ∧ api_login check (seededAdmins h) sess
          ⟨some (str "admin"), some (str "admin")⟩
        = (.ok (str "admin@example.com"),
            some (1, str "admin@example.com")))
    ∧ (∀ (check : Str → Str → Bool) (admins : List AdminRow)
        (sess : Session) (data : LoginReq),
      (∀ a ∈ admins, check a.password_hash (data.password.getD []) = false) →
      api_login check admins sess data = (.invalid, sess)
        ∧ loginStatus .invalid = 401) := by
  constructor
  · intro h sess check hch
    have e1 : api_login check (seededAdmins h) sess
        ⟨some (str "admin"), some (str "admin")⟩
        = if check h (str "admin") = true
          then (.ok (str "admin@example.com"),
            some (1, str "admin@example.com"))
          else (.invalid, sess) := rfl
    have e2 : api_login check (seededAdmins h) sess
        ⟨some (str "admin@example.com"), some (str "admin")⟩
        = if check h (str "admin") = true
          then (.ok (str "admin@example.com"),
            some (1, str "admin@example.com"))
          else (.invalid, sess) := rfl
    rw [e1, e2, if_pos hch]
    exact ⟨rfl, rfl⟩
  · intro check admins sess data hall
    refine ⟨?_, rfl⟩
    simp only [api_login]
    split
    · rename_i r heq
      have hr : r ∈ admins := by
        split at heq
        · exact List.mem_of_find?_eq_some heq
        · exact List.mem_of_find?_eq_some heq
      rw [if_neg (by simp [hall r hr])]
    · rfl

/-- C8 witness: with the equality checker and the seeded hash `admin`, both
identifiers log in to the same account, and the password `wrong` is a 401
that leaves the (empty) session empty. -/
theorem C8_login_aliases_witness :
    (api_login eqCheck (seededAdmins (str "admin")) none
        ⟨some (str "admin"), some (str "admin")⟩
      = api_login eqCheck (seededAdmins (str "admin")) none
        ⟨some (str "admin@example.com"), some (str "admin")⟩
    ∧ api_login eqCheck (seededAdmins (str "admin")) none
        ⟨some (str "admin"), some (str "admin")⟩
      = (.ok (str "admin@example.com"),
          some (1, str "admin@example.com")))
    ∧ (api_login eqCheck (seededAdmins (str "admin")) none
        ⟨some (str "admin"), some (str "wrong")⟩ = (.invalid, none)
      ∧ loginStatus .invalid = 401) :=
  ⟨C8_login_aliases.1 (str "admin") none eqCheck (by decide),
    C8_login_aliases.2 eqCheck (seededAdmins (str "admin")) none
      ⟨some (str "admin"), some (str "wrong")⟩ (by decide)⟩

/-- C9: a create whose `active` value is absent or not truthy stores the row
with `active = 0` and the public listing never shows a task with the new id;
a truthy `active` stores 1 and the decoded task appears in the listing; an
update with a non-truthy `active` leaves every row carrying the updated id
with `active = 0`, so the public listing shows no task with that id. -/
theorem C9_active_gates_visibility :
    (∀ (st : DBState) (data : TaskInput) (now : Str),
      (data.active == some true) = false →
      (pyStrip (data.title.getD [])).isEmpty = false →
      (∀ t ∈ st.tasks, t.id ≠ st.nextTaskId) →
      (taskRowOfInput st.nextTaskId data now now).active = 0
        ∧ (api_admin_create st true data now).2.tasks
          = st.tasks ++ [taskRowOfInput st.nextTaskId data now now]
        ∧ ∀ ot ∈ api_tasks_public (api_admin_create st true data now).2,
            ∀ tk, ot = some tk → tk.id ≠ st.nextTaskId)
    ∧ (∀ (st : DBState) (data : TaskInput) (now : Str),
      (data.active == some true) = true →
      (pyStrip (data.title.getD [])).isEmpty = false →
      (taskRowOfInput st.nextTaskId data now now).active = 1
        ∧ row_to_task (taskRowOfInput st.nextTaskId data now now)
            ∈ api_tasks_public (api_admin_create st true data now).2)
    ∧ (∀ (st : DBState) (task_id : Int) (data : TaskInput) (now : Str),
      (data.active == some true) = false →
      (pyStrip (data.title.getD [])).isEmpty = false →
      (∀ r ∈ (api_admin_update st true task_id data now).2.tasks,
          r.id = task_id → r.active = 0)
        ∧ ∀ ot ∈ api_tasks_public
              (api_admin_update st true task_id data now).2,
            ∀ tk, ot = some tk → tk.id ≠ task_id) := by
  refine ⟨?_, ?_, ?_⟩
  · intro st data now hfalse htitle hfresh
    have hact : (taskRowOfInput st.nextTaskId data now now).active = 0 := by
      simp [taskRowOfInput, hfalse]
    have h2 : (api_admin_create st true data now).2
        = { st with
            tasks := st.tasks ++ [taskRowOfInput st.nextTaskId data now now]
            nextTaskId := st.nextTaskId + 1 } := by
      simp only [api_admin_create, Bool.not_true, Bool.false_eq_true,
        if_false, htitle]
    refine ⟨hact, by rw [h2], ?_⟩
    intro ot hot tk hok
    rw [h2] at hot
    simp only [api_tasks_public] at hot
    obtain ⟨r, hr, hrot⟩ := List.mem_map.mp hot
    obtain ⟨hrmem, hrpred⟩ := List.mem_filter.mp (mem_sortByIdDesc.mp hr)
    intro hideq
    have hid2 : tk.id = r.id := row_to_task_id (hrot.trans hok)
    rcases List.mem_append.mp hrmem with hin | hin
    · exact hfresh r hin (hid2.symm.trans hideq)
    · rw [List.mem_singleton] at hin
      rw [hin, hact] at hrpred
      cases hrpred
  · intro st data now htrue htitle
    have h2 : (api_admin_create st true data now).2
        = { st with
            tasks := st.tasks ++ [taskRowOfInput st.nextTaskId data now now]
            nextTaskId := st.nextTaskId + 1 } := by
      simp only [api_admin_create, Bool.not_true, Bool.false_eq_true,
        if_false, htitle]
    refine ⟨by simp [taskRowOfInput, htrue], ?_⟩
    rw [h2]
    simp only [api_tasks_public]
    apply List.mem_map_of_mem
    apply mem_sortByIdDesc.mpr
    apply List.mem_filter.mpr
    refine ⟨List.mem_append.mpr (Or.inr (List.mem_singleton.mpr rfl)), ?_⟩
    simp [taskRowOfInput, htrue]
  · intro st task_id data now hfalse htitle
    cases hfind : st.tasks.find? (fun t => t.id == task_id) with
    | none =>
      have hupd : api_admin_update st true task_id data now
          = (.notFound, st) := by
        simp only [api_admin_update, Bool.not_true, Bool.false_eq_true,
          if_false, htitle, hfind]
      constructor
      · intro r hr hid
        rw [hupd] at hr
        exact absurd (by simp [hid] :
            ((fun t : TaskRow => t.id == task_id) r) = true)
          (List.find?_eq_none.mp hfind r hr)
      · intro ot hot tk hok hideq
        rw [hupd] at hot
        simp only [api_tasks_public] at hot
        obtain ⟨r, hr, hrot⟩ := List.mem_map.mp hot
        obtain ⟨hrmem, _⟩ := List.mem_filter.mp (mem_sortByIdDesc.mp hr)
        have hid2 : tk.id = r.id := row_to_task_id (hrot.trans hok)
        have hrid : r.id = task_id := hid2.symm.trans hideq
        exact absurd (by simp [hrid] :
            ((fun t : TaskRow => t.id == task_id) r) = true)
          (List.find?_eq_none.mp hfind r hrmem)
    | some r0 =>
      have h2 : (api_admin_update st true task_id data now).2
          = { st with tasks := st.tasks.map (fun t =>
              if t.id == task_id then updateRow data now t else t) } := by
        simp only [api_admin_update, Bool.not_true, Bool.false_eq_true,
          if_false, htitle, hfind]
      have key : ∀ r ∈ (api_admin_update st true task_id data now).2.tasks,
          r.id = task_id → r.active = 0 := by
        intro r hr hid
        rw [h2] at hr
        obtain ⟨t, ht, hteq⟩ := List.mem_map.mp hr
        by_cases hc : (t.id == task_id) = true
        · rw [if_pos hc] at hteq
          rw [← hteq]
          simp [updateRow, taskRowOfInput, hfalse]
        · rw [if_neg hc] at hteq
          exact absurd (by rw [hteq]; simp [hid] : (t.id == task_id) = true) hc
      refine ⟨key, ?_⟩
      intro ot hot tk hok hideq
      rw [h2] at hot
      simp only [api_tasks_public] at hot
      obtain ⟨r, hr, hrot⟩ := List.mem_map.mp hot
      obtain ⟨hrmem, hrpred⟩ := List.mem_filter.mp (mem_sortByIdDesc.mp hr)
      have hid2 : tk.id = r.id := row_to_task_id (hrot.trans hok)
      have hrid : r.id = task_id := hid2.symm.trans hideq
      have hact := key r (by rw [h2]; exact hrmem) hrid
      rw [hact] at hrpred
      cases hrpred

/-- C9 witness: creating with the `active` key absent stores 0; creating
with a truthy `active` stores 1 and the task is publicly listed; updating
task 1 with the key absent stores 0 on its row. -/
theorem C9_active_gates_visibility_witness :
    (taskRowOfInput 1 inactiveInput (str "n") (str "n")).active = 0
    ∧ (taskRowOfInput 1 sampleInput (str "n") (str "n")).active = 1
    ∧ row_to_task (taskRowOfInput 1 sampleInput (str "n") (str "n"))
        ∈ api_tasks_public
          (api_admin_create emptyState true sampleInput (str "n")).2
    ∧ (updateRow inactiveInput (str "n") (sampleTask none)).active = 0 := by
  refine ⟨?_, ?_, ?_, ?_⟩
  · exact (C9_active_gates_visibility.1 emptyState inactiveInput (str "n")
      (by decide) (by decide) (by decide)).1
  · exact (C9_active_gates_visibility.2.1 emptyState sampleInput (str "n")
      (by decide) (by decide)).1
  · exact (C9_active_gates_visibility.2.1 emptyState sampleInput (str "n")
      (by decide) (by decide)).2
  · exact (C9_active_gates_visibility.2.2 (sampleState none) 1 inactiveInput
      (str "n") (by decide) (by decide)).1
      (updateRow inactiveInput (str "n") (sampleTask none))
      (by decide) (by decide)

end Asegedech
